import Mathlib

/-!
# LED-Strip DDP Simulator: a shallow embedding of `ledstrip-ddpsim.c`

The definitions below follow the C source function by function.

Conventions of the embedding:

* `int` and `time_t` values are `Int`. The geometry derivation of `main` computes
  with values taken from the command line: there every sum, difference and product
  is reduced into the range of a 32 bit `int` (two's complement), as the compiled
  program does, and a division by zero ends the process. The layout transform
  cannot leave the range of `int` for an index inside the grid, and the statistics
  counters are plain integers.
* `unsigned` values are `Nat`, and unsigned arithmetic is reduced modulo `2 ^ 32`
  where the source computes it (`pixelCount * 3` in `DDPGetPacket`).
* C's `/` and `%` on `int` are `Int.tdiv` and `Int.tmod` (truncation toward zero).
* A byte buffer is a `List Nat`; its length is the size of the C array. `memcpy`
  and the pixel reads are bounds checked: an access outside the array is reported
  as `outOfBounds` (undefined behaviour in C) instead of being given a meaning.
* A C string is the `List Char` of its characters before the terminating NUL.
* Calls of `exit` are explicit results. Text written to the terminal and the
  raylib window calls are not modelled.
-/

namespace LedstripDDPSim

/-! ## Data model -/

/-- Size of the datagram receive buffer, `#define DDP_BUFSIZE 1500`. -/
def DDP_BUFSIZE : Nat := 1500

/-- Size in bytes of `uint8_t pixels[256 * 3]`, the pixel buffer declared in `main`. -/
def PIXELS_SIZE : Nat := 256 * 3

/-- The `args_t` structure: every field is an `int`. -/
structure args_t where
  verbose : Int
  screenWidth : Int
  screenHeight : Int
  pixelsX : Int
  pixelsY : Int
  pixelCount : Int
  gutterX : Int
  gutterY : Int
  pixelW : Int
  pixelH : Int
  snake : Int
  mirror : Int
  flip : Int
  tilt : Int
  circle : Int
  overlay : Int
  fps : Int
  hold : Int
  idleexit : Int
  report_rate : Int
  dump_nth : Int
deriving DecidableEq

/-- The static initialiser of `args`: the named fields, every other field zero. -/
def args : args_t :=
  { verbose := 0, screenWidth := 800, screenHeight := 600, pixelsX := 20, pixelsY := 0,
    pixelCount := 0, gutterX := 15, gutterY := 0, pixelW := 0, pixelH := 0,
    snake := 0, mirror := 0, flip := 0, tilt := 0, circle := 0, overlay := 0,
    fps := 60, hold := 0, idleexit := 0, report_rate := 0, dump_nth := 0 }

/-- A `struct timespec`: whole seconds and nanoseconds. -/
structure timespec where
  tv_sec : Int
  tv_nsec : Int
deriving DecidableEq

/-- The `stats_t` structure. The field `elapsed` of the source is a `double` holding
seconds; here it is `elapsed_ns`, the same quantity in nanoseconds, kept exact. -/
structure stats_t where
  draw_count : Int
  packet_count : Int
  packet_errors : Int
  start_time : timespec
  ddp_time : timespec
  last_report : timespec
  elapsed_ns : Int
deriving DecidableEq

/-- The static initialiser `stats = {0}`. -/
def stats : stats_t :=
  { draw_count := 0, packet_count := 0, packet_errors := 0,
    start_time := ⟨0, 0⟩, ddp_time := ⟨0, 0⟩, last_report := ⟨0, 0⟩, elapsed_ns := 0 }

/-- C's logical negation `!v` on an `int`. -/
def lnot (v : Int) : Int := if v = 0 then 1 else 0

/-! ## Receiving a packet -/

/-- What the socket offers when `DDPGetPacket` is called: `select` does not report
the descriptor readable (it returns something other than 1), or `recvfrom` fails,
or a datagram with the given bytes is waiting. -/
inductive SockInput where
  | notReady
  | recvError
  | datagram (bytes : List Nat)
deriving DecidableEq

/-- Result of `DDPGetPacket`: the returned `int` with the pixel buffer and `ddp_buf`
as they are left, or `exit(EXIT_FAILURE)`, or a copy outside the pixel buffer. -/
inductive PacketResult where
  | ret (value : Int) (pixels : List Nat) (ddp_buf : List Nat)
  | exitFailure
  | outOfBounds
deriving DecidableEq

/-- The call `memcpy(dst, src, n)`: the first `n` bytes of `dst` become the first
`n` bytes of `src`; `none` when either array is shorter than `n`. -/
def memcpy (dst src : List Nat) (n : Nat) : Option (List Nat) :=
  if n ≤ dst.length ∧ n ≤ src.length then some (src.take n ++ dst.drop n) else none

/-- The call `recvfrom(sockfd, ddp_buf, DDP_BUFSIZE, ...)` on a waiting datagram:
at most `DDP_BUFSIZE` bytes are stored at the start of `ddp_buf`, the rest of the
buffer keeps its content; the number of bytes stored is returned. -/
def recvfrom (ddp_buf : List Nat) (bytes : List Nat) : Nat × List Nat :=
  let datalen := min bytes.length DDP_BUFSIZE
  (datalen, bytes.take datalen ++ ddp_buf.drop datalen)

/-- Source function `DDPGetPacket(sockfd, pixels, pixelCount)`, with the socket
replaced by what it offers and the global `ddp_buf` passed explicitly. On the path
that copies, `rgbCount` is never negative, so it is a `Nat`; the comparison with
`pixelCount * 3` is the unsigned one of the source. -/
def DDPGetPacket (sock : SockInput) (ddp_buf : List Nat) (pixels : List Nat)
    (pixelCount : Nat) : PacketResult :=
  match sock with
  | .notReady => .ret (-1) pixels ddp_buf
  | .recvError => .exitFailure
  | .datagram bytes =>
    let (datalen, ddp_buf) := recvfrom ddp_buf bytes
    let rgbCount : Nat := if datalen > 10 then datalen - 10 else 0
    let rgbCount : Nat :=
      if rgbCount > (pixelCount * 3) % 2 ^ 32 then (pixelCount * 3) % 2 ^ 32 else rgbCount
    match memcpy pixels (ddp_buf.drop 10) rgbCount with
    | some pixels => .ret (rgbCount : Int) pixels ddp_buf
    | none => .outOfBounds

/-! ## Drawing -/

/-- The cell `(x, y)` that the loop body of `UpdateDrawFrame` computes for the
index `i` ("Find x and y positions"). -/
def UpdateDrawFrame_cell (a : args_t) (i : Int) : Int × Int :=
  let x := Int.tmod i a.pixelsX
  let y := Int.tdiv i a.pixelsX
  let x := if (if a.snake ≠ 0 ∧ Int.tmod y 2 ≠ 0 then lnot a.mirror else a.mirror) ≠ 0
    then a.pixelsX - 1 - x else x
  let y := if a.flip ≠ 0 then a.pixelsY - 1 - y else y
  if a.tilt ≠ 0 then (y, x) else (x, y)

/-- The read `Color c = {pixels[i * 3], pixels[i * 3 + 1], pixels[i * 3 + 2], 255}`
of `UpdateDrawFrame`; `none` when an index lies outside the pixel buffer. -/
def UpdateDrawFrame_color (pixels : List Nat) (i : Nat) : Option (Nat × Nat × Nat) :=
  match pixels[i * 3]?, pixels[i * 3 + 1]?, pixels[i * 3 + 2]? with
  | some r, some g, some b => some (r, g, b)
  | _, _, _ => none

/-! ## Command line -/

/-- The white space that `strtol` skips (`isspace` in the C locale). -/
def isspace (c : Char) : Bool :=
  c.toNat = 32 ∨ (9 ≤ c.toNat ∧ c.toNat ≤ 13)

/-- Largest `long` (64 bit). -/
def LONG_MAX : Int := 2 ^ 63 - 1

/-- Smallest `long` (64 bit). -/
def LONG_MIN : Int := -(2 ^ 63)

/-- Value of a run of decimal digits, most significant first, continuing from `acc`. -/
def digitsValue (acc : Nat) : List Char → Nat
  | [] => acc
  | c :: cs => digitsValue (acc * 10 + (c.toNat - 48)) cs

/-- The libc call `strtol(s, &endptr, 10)`: skips white space, reads an optional sign
and the longest run of decimal digits. Returns the value, clamped to the range of
`long`, and the number of characters consumed (`endptr - s`); without any digit the
value is 0 and nothing is consumed. -/
def strtol (s : List Char) : Int × Nat :=
  let ws := s.takeWhile isspace
  let rest := s.dropWhile isspace
  let (neg, signLen, rest) :=
    match rest with
    | c :: cs => if c = '-' then (true, 1, cs) else if c = '+' then (false, 1, cs) else (false, 0, rest)
    | [] => (false, 0, rest)
  let digits := rest.takeWhile Char.isDigit
  if digits.isEmpty then (0, 0)
  else
    let magnitude : Int := digitsValue 0 digits
    let value := if neg then max (-magnitude) LONG_MIN else min magnitude LONG_MAX
    (value, ws.length + signLen + digits.length)

/-- Conversion of a `long` to `int` in the assignment `int val = strtol(...)`:
reduction modulo `2 ^ 32` into the range of `int`. -/
def longToInt (v : Int) : Int := (v + 2 ^ 31) % 2 ^ 32 - 2 ^ 31

/-- The character `*p` for `p = s + n`: the terminating NUL at and after the end. -/
def charAt (s : List Char) (n : Nat) : Char := (s.drop n).headD (Char.ofNat 0)

/-- Result of a step that may end the process: by a call of `exit`, or by a fault
(the signal SIGFPE of an integer division). -/
inductive Exits (α : Type) where
  | ok (value : α)
  | exitSuccess
  | exitFailure
  | fault
deriving DecidableEq

/-- Source function `parse_int(arg, error_hint)`; `arg` is `none` for a null pointer. -/
def parse_int (arg : Option (List Char)) : Exits Int :=
  match arg with
  | none => .exitFailure
  | some arg =>
    let (value, endptr) := strtol arg
    let val := longToInt value
    if endptr = 0 then .exitFailure else .ok val

/-- Source function `parse_tuple(arg, x, y, error_hint)`. The pointers `x` and `y`
are the incoming values of `*x` and `*y` (the first is always overwritten); the
result is the returned `int` with the final `*x` and `*y`. `endptr` is kept as an
offset from `arg`, so that `arg == endptr` is `endptr = 0`. -/
def parse_tuple (arg : Option (List Char)) (_x y : Int) : Exits (Int × Int × Int) :=
  match arg with
  | none => .exitFailure
  | some arg =>
    let (value, endptr) := strtol arg
    let val := longToInt value
    if endptr = 0 then .exitFailure
    else
      let x := val
      if charAt arg endptr ≠ Char.ofNat 0 then .ok (1, x, y)
      else if charAt arg endptr ≠ 'x' then .exitFailure
      else
        let p := endptr + 1
        let (value, consumed) := strtol (arg.drop p)
        let val := longToInt value
        let endptr := p + consumed
        if endptr = 0 then .exitFailure
        else
          let y := val
          .ok (2, x, y)

/-- The `-R` case of the option switch in `main`: rotate the layout right. -/
def main_rotate_right (a : args_t) : args_t :=
  if a.tilt ≠ 0 then { a with tilt := 0, flip := lnot a.flip }
  else { a with tilt := 1, mirror := lnot a.mirror }

/-- The `-L` case of the option switch in `main`: rotate the layout left. -/
def main_rotate_left (a : args_t) : args_t :=
  if a.tilt ≠ 0 then { a with tilt := 0, mirror := lnot a.mirror }
  else { a with tilt := 1, flip := lnot a.flip }

/-- Sequencing of steps that may call `exit`. -/
def Exits.bind {α β : Type} (r : Exits α) (f : α → Exits β) : Exits β :=
  match r with
  | .ok v => f v
  | .exitSuccess => .exitSuccess
  | .exitFailure => .exitFailure
  | .fault => .fault

/-- The body of the option switch in `main` for one option character `opt` returned
by `getopt`, with its argument `optarg`. -/
def main_option (opt : Char) (optarg : Option (List Char)) (a : args_t) : Exits args_t :=
  if opt = 'h' then .exitSuccess
  else if opt = 'V' then .exitSuccess
  else if opt = 'v' then .ok { a with verbose := a.verbose + 1 }
  else if opt = 's' then
    (parse_tuple optarg a.screenWidth a.screenHeight).bind fun r =>
      .ok { a with screenWidth := r.2.1, screenHeight := r.2.2 }
  else if opt = 'p' then
    (parse_tuple optarg a.pixelsX a.pixelsY).bind fun r =>
      .ok { a with pixelsX := r.2.1, pixelsY := r.2.2 }
  else if opt = 'n' then
    (parse_int optarg).bind fun v => .ok { a with pixelCount := v }
  else if opt = 'g' then
    (parse_tuple optarg a.gutterX a.gutterY).bind fun r =>
      .ok { a with gutterX := r.2.1, gutterY := r.2.2 }
  else if opt = 'S' then .ok { a with snake := lnot a.snake }
  else if opt = 'M' then .ok { a with mirror := lnot a.mirror }
  else if opt = 'F' then .ok { a with flip := lnot a.flip }
  else if opt = 'T' then .ok { a with tilt := lnot a.tilt }
  else if opt = 'R' then .ok (main_rotate_right a)
  else if opt = 'L' then .ok (main_rotate_left a)
  else if opt = 'C' then .ok { a with circle := a.circle + 1 }
  else if opt = 'O' then .ok { a with overlay := a.overlay + 1 }
  else if opt = 'f' then (parse_int optarg).bind fun v => .ok { a with fps := v }
  else if opt = 'H' then (parse_int optarg).bind fun v => .ok { a with hold := v }
  else if opt = 'E' then (parse_int optarg).bind fun v => .ok { a with idleexit := v }
  else if opt = 'r' then (parse_int optarg).bind fun v => .ok { a with report_rate := v }
  else if opt = 'd' then (parse_int optarg).bind fun v => .ok { a with dump_nth := v }
  else if opt = '?' then .exitFailure
  else .ok a

/-- The `getopt` loop of `main` over the options in the order `getopt` returns them. -/
def main_options : List (Char × Option (List Char)) → args_t → Exits args_t
  | [], a => .ok a
  | (opt, optarg) :: rest, a => (main_option opt optarg a).bind (main_options rest)

/-- Largest `int` (32 bit). -/
def INT_MAX : Int := 2147483647

/-- Smallest `int` (32 bit). -/
def INT_MIN : Int := -2147483648

/-- Reduction of a mathematical result into the range of a 32 bit `int`: the value
the compiled program holds after an `int` operation (two's complement). -/
def int_wrap (v : Int) : Int := (v + 2147483648) % 4294967296 - 2147483648

/-- The `int` sum `a + b`. -/
def int_add (a b : Int) : Int := int_wrap (a + b)

/-- The `int` difference `a - b`. -/
def int_sub (a b : Int) : Int := int_wrap (a - b)

/-- The `int` product `a * b`. -/
def int_mul (a b : Int) : Int := int_wrap (a * b)

/-- The `int` quotient `a / b`, truncated toward zero; `none` for a division by zero
and for `INT_MIN / -1`, where the process is killed by SIGFPE. -/
def int_div (a b : Int) : Option Int :=
  if b = 0 ∨ (a = INT_MIN ∧ b = -1) then none else some (Int.tdiv a b)

/-- The block "Use defaults if unset" of `main`: derives `pixelsY` and `pixelCount`
(and `gutterY`) in `int` arithmetic. The division is reached only when rows are not
given and a pixel count is; with `pixelsX = 0` it is a fault there, and otherwise
the first division by `pixelsX` is the one of `main_pixel_size` in the main loop. -/
def main_geometry (a : args_t) : Exits args_t :=
  let a := if a.pixelsY = 0 ∧ a.pixelCount = 0 then { a with pixelsY := 10 } else a
  let r : Exits args_t :=
    if a.pixelsY = 0 then
      match int_div (int_sub (int_add a.pixelCount a.pixelsX) 1) a.pixelsX with
      | some q => .ok { a with pixelsY := q }
      | none => .fault
    else .ok a
  r.bind fun a =>
    let a := if a.pixelCount = 0
      then { a with pixelCount := int_mul a.pixelsX a.pixelsY } else a
    .ok (if a.gutterY = 0 then { a with gutterY := a.gutterX } else a)

/-- Start of `main` up to the window initialisation: the options are applied to the
static `args`, then the geometry is derived. -/
def main_configure (opts : List (Char × Option (List Char))) : Exits args_t :=
  (main_options opts args).bind main_geometry

/-- Conversion of an `int` to `unsigned`, as in the call
`DDPGetPacket(sockfd, pixels, args.pixelCount)`. -/
def intToUnsigned (v : Int) : Nat := (v % 2 ^ 32).toNat

/-! ## The main loop -/

/-- Difference `now - t` of two timestamps in nanoseconds: the value the source
stores (in seconds, as a `double`) in `stats.elapsed` for `t = stats.start_time`. -/
def timespec_diff_ns (now t : timespec) : Int :=
  (now.tv_sec - t.tv_sec) * 1000000000 + (now.tv_nsec - t.tv_nsec)

/-- How the "Update state" part of one iteration of the main loop ends: it goes on
to draw the frame, or leaves the loop by `break`, or the process exits, or
`DDPGetPacket` copied outside the pixel buffer. -/
inductive UpdateResult where
  | draw (st : stats_t) (pixels : List Nat) (ddp_buf : List Nat) (ddp_len : Int)
  | idleBreak (st : stats_t) (pixels : List Nat) (ddp_buf : List Nat)
  | exitFailure
  | outOfBounds
deriving DecidableEq

/-- Main loop, the lines after `clock_gettime`: `stats.elapsed` is set, then
`packet_errors` is counted for `ddp_len < 0`, and `packet_count` is counted and
`ddp_time` set to `now` for `ddp_len > 0`. The packet dump only prints. -/
def main_count (st : stats_t) (now : timespec) (ddp_len : Int) : stats_t :=
  let st := { st with elapsed_ns := timespec_diff_ns now st.start_time }
  let st := if ddp_len < 0 then { st with packet_errors := st.packet_errors + 1 } else st
  if ddp_len > 0 then { st with packet_count := st.packet_count + 1, ddp_time := now } else st

/-- Main loop, the report test: `last_report` is set to `now` when a report is due
(`ReportStats` only prints). -/
def main_report (a : args_t) (st : stats_t) (now : timespec) : stats_t :=
  if a.report_rate ≠ 0 ∧ now.tv_sec - st.last_report.tv_sec > a.report_rate
  then { st with last_report := now } else st

/-- Main loop, the hold test: `memset(pixels, 0, sizeof(pixels))`, which zeroes the
whole array, when the condition on `args.hold` holds. -/
def main_hold (a : args_t) (st : stats_t) (now : timespec) (pixels : List Nat) : List Nat :=
  if a.hold ≠ 0 ∧ now.tv_sec - st.start_time.tv_sec > a.hold
      ∧ now.tv_sec - st.ddp_time.tv_sec > a.hold
  then List.replicate pixels.length 0 else pixels

/-- Main loop, the idle exit test: whether the loop is left by `break`. -/
def main_idleexit (a : args_t) (st : stats_t) (now : timespec) : Bool :=
  a.idleexit ≠ 0 ∧ now.tv_sec - st.start_time.tv_sec > a.idleexit
    ∧ now.tv_sec - st.ddp_time.tv_sec > a.idleexit

/-- The "Update state" part of one iteration of the main loop of `main`, from the
call of `DDPGetPacket` to the idle exit test. `now` is the value that
`clock_gettime(CLOCK_MONOTONIC, &now)` stores. -/
def main_update (a : args_t) (st : stats_t) (ddp_buf : List Nat) (pixels : List Nat)
    (sock : SockInput) (now : timespec) : UpdateResult :=
  match DDPGetPacket sock ddp_buf pixels (intToUnsigned a.pixelCount) with
  | .exitFailure => .exitFailure
  | .outOfBounds => .outOfBounds
  | .ret ddp_len pixels ddp_buf =>
    let st := main_count st now ddp_len
    let st := main_report a st now
    let pixels := main_hold a st now pixels
    if main_idleexit a st now then .idleBreak st pixels ddp_buf
    else .draw st pixels ddp_buf ddp_len

/-- The "Drawing" part of one iteration of the main loop before the call of
`UpdateDrawFrame`: the window size reported by raylib is stored, and the size of a
drawn pixel is computed in `int` arithmetic. -/
def main_pixel_size (a : args_t) (screenWidth screenHeight : Int) : Exits args_t :=
  let a := { a with screenWidth := screenWidth, screenHeight := screenHeight }
  match int_div (int_sub a.screenWidth (int_mul (int_add a.pixelsX 1) a.gutterX))
      a.pixelsX with
  | none => .fault
  | some w =>
    let a := { a with pixelW := w }
    match int_div (int_sub a.screenHeight (int_mul (int_add a.pixelsY 1) a.gutterY))
        a.pixelsY with
    | none => .fault
    | some h => .ok { a with pixelH := h }

/-- The statistics after the update, when the loop iteration got that far. -/
def UpdateResult.stats? : UpdateResult → Option stats_t
  | .draw st _ _ _ => some st
  | .idleBreak st _ _ => some st
  | .exitFailure => none
  | .outOfBounds => none

/-- The pixel buffer after the update, when the loop iteration got that far. -/
def UpdateResult.pixels? : UpdateResult → Option (List Nat)
  | .draw _ pixels _ _ => some pixels
  | .idleBreak _ pixels _ => some pixels
  | .exitFailure => none
  | .outOfBounds => none

/-! ## Sample data -/

/-- A 13 byte datagram: a 10 byte header and the one triplet `(10, 20, 30)`. -/
def datagram13 : List Nat := [65, 1, 0, 1, 0, 0, 0, 0, 0, 3, 10, 20, 30]

/-- A 50 byte datagram with the bytes `0, 1, ..., 49`: header and 40 payload bytes. -/
def datagram50 : List Nat := List.range 50

/-- A pixel buffer of 10 pixels, every byte 7. -/
def pixels10 : List Nat := List.replicate 30 7

/-- The pixel buffer of `main`, `uint8_t pixels[256 * 3]`, every byte 7. -/
def pixels256 : List Nat := List.replicate PIXELS_SIZE 7

/-- A datagram of 1500 bytes, every byte 1: header and 1490 payload bytes. -/
def datagram1500 : List Nat := List.replicate 1500 1

/-- The receive buffer `ddp_buf` before the first datagram: 1500 zero bytes. -/
def ddp_buf0 : List Nat := List.replicate DDP_BUFSIZE 0

/-! ## Rotating the layout -/

/-- C7: for boolean `mirror`, `flip` and `tilt` (any `snake`), the options `-R` then
`-L` leave every field of `args` as it was, and so do `-L` then `-R`. -/
theorem rotate_right_left_restores (a : args_t)
    (hm : a.mirror = 0 ∨ a.mirror = 1) (hf : a.flip = 0 ∨ a.flip = 1)
    (ht : a.tilt = 0 ∨ a.tilt = 1) :
    main_options [('R', none), ('L', none)] a = .ok a
      ∧ main_options [('L', none), ('R', none)] a = .ok a := by
  obtain ⟨v, sw, sh, px, py, pc, gx, gy, pw, ph, sn, mi, fl, ti, ci, ov, fps, ho, ie, rr, dn⟩ := a
  simp only at hm hf ht
  rcases hm with rfl | rfl <;> rcases hf with rfl | rfl <;> rcases ht with rfl | rfl <;>
    simp [main_options, main_option, Exits.bind, main_rotate_right, main_rotate_left, lnot]

/-- C7 at a concrete flag state: snake and flip set, mirror and tilt clear. -/
theorem rotate_right_left_restores_witness :
    main_options [('R', none), ('L', none)] { args with snake := 1, flip := 1 }
        = .ok { args with snake := 1, flip := 1 }
      ∧ main_options [('L', none), ('R', none)] { args with snake := 1, flip := 1 }
        = .ok { args with snake := 1, flip := 1 } :=
  rotate_right_left_restores { args with snake := 1, flip := 1 }
    (by decide) (by decide) (by decide)

/-- C8: for boolean `mirror`, `flip` and `tilt` (any `snake`), the option `-R` given
four times in a row leaves every field of `args` as it was. -/
theorem rotate_right_four_times (a : args_t)
    (hm : a.mirror = 0 ∨ a.mirror = 1) (hf : a.flip = 0 ∨ a.flip = 1)
    (ht : a.tilt = 0 ∨ a.tilt = 1) :
    main_options [('R', none), ('R', none), ('R', none), ('R', none)] a = .ok a := by
  obtain ⟨v, sw, sh, px, py, pc, gx, gy, pw, ph, sn, mi, fl, ti, ci, ov, fps, ho, ie, rr, dn⟩ := a
  simp only at hm hf ht
  rcases hm with rfl | rfl <;> rcases hf with rfl | rfl <;> rcases ht with rfl | rfl <;>
    simp [main_options, main_option, Exits.bind, main_rotate_right, lnot]

/-- C8 at a concrete flag state: mirror and tilt set, snake and flip clear. -/
theorem rotate_right_four_times_witness :
    main_options [('R', none), ('R', none), ('R', none), ('R', none)]
        { args with mirror := 1, tilt := 1 }
      = .ok { args with mirror := 1, tilt := 1 } :=
  rotate_right_four_times { args with mirror := 1, tilt := 1 }
    (by decide) (by decide) (by decide)

/-! ## The layout transform -/

/-- For a non-negative index and a positive column count, C's `%` and `/` are the
Euclidean remainder and quotient. -/
theorem cell_base (c i : Int) (hc : 1 ≤ c) (h0 : 0 ≤ i) :
    Int.tmod i c = i % c ∧ Int.tdiv i c = i / c :=
  ⟨Int.tmod_eq_emod h0 (by omega), Int.tdiv_eq_ediv h0 (by omega)⟩

/-- Row-major base layout: column and row of an index below `c * r`. -/
theorem cell_base_bounds (c r i : Int) (hc : 1 ≤ c) (h0 : 0 ≤ i) (hi : i < c * r) :
    0 ≤ i % c ∧ i % c < c ∧ 0 ≤ i / c ∧ i / c < r := by
  refine ⟨Int.emod_nonneg i (by omega), Int.emod_lt_of_pos i (by omega),
    Int.ediv_nonneg h0 (by omega), ?_⟩
  apply Int.ediv_lt_of_lt_mul (by omega)
  rw [Int.mul_comm]
  exact hi

/-- The transform written with the Euclidean remainder and quotient. -/
theorem cell_eq (a : args_t) (i : Int) (hc : 1 ≤ a.pixelsX) (h0 : 0 ≤ i) :
    UpdateDrawFrame_cell a i =
      if a.tilt ≠ 0 then
        (if a.flip ≠ 0 then a.pixelsY - 1 - i / a.pixelsX else i / a.pixelsX,
         if (if a.snake ≠ 0 ∧ Int.tmod (i / a.pixelsX) 2 ≠ 0 then lnot a.mirror
              else a.mirror) ≠ 0
          then a.pixelsX - 1 - i % a.pixelsX else i % a.pixelsX)
      else
        (if (if a.snake ≠ 0 ∧ Int.tmod (i / a.pixelsX) 2 ≠ 0 then lnot a.mirror
              else a.mirror) ≠ 0
          then a.pixelsX - 1 - i % a.pixelsX else i % a.pixelsX,
         if a.flip ≠ 0 then a.pixelsY - 1 - i / a.pixelsX else i / a.pixelsX) := by
  obtain ⟨hm, hd⟩ := cell_base a.pixelsX i hc h0
  simp only [UpdateDrawFrame_cell, hm, hd]

/-- C2: for at least one column, any flags and any index `i` with
`0 ≤ i < columns * rows` (so there is at least one row), the cell `(x, y)` lies in
the grid: `x` is a column and `y` a row when tilt is clear, `x` is a row and `y` a
column when tilt is set. -/
theorem cell_in_grid (a : args_t) (i : Int) (hc : 1 ≤ a.pixelsX)
    (h0 : 0 ≤ i) (hi : i < a.pixelsX * a.pixelsY) :
    (a.tilt = 0 →
        0 ≤ (UpdateDrawFrame_cell a i).1 ∧ (UpdateDrawFrame_cell a i).1 < a.pixelsX
          ∧ 0 ≤ (UpdateDrawFrame_cell a i).2 ∧ (UpdateDrawFrame_cell a i).2 < a.pixelsY)
      ∧ (a.tilt ≠ 0 →
        0 ≤ (UpdateDrawFrame_cell a i).1 ∧ (UpdateDrawFrame_cell a i).1 < a.pixelsY
          ∧ 0 ≤ (UpdateDrawFrame_cell a i).2 ∧ (UpdateDrawFrame_cell a i).2 < a.pixelsX) := by
  obtain ⟨hx0, hx1, hy0, hy1⟩ := cell_base_bounds a.pixelsX a.pixelsY i hc h0 hi
  rw [cell_eq a i hc h0]
  constructor
  · intro ht
    rw [if_neg (not_not.mpr ht)]
    split_ifs <;> simp only <;> omega
  · intro ht
    rw [if_pos ht]
    split_ifs <;> simp only <;> omega

/-- C2 on a 4 by 3 snake layout with tilt set, at index 5. -/
theorem cell_in_grid_witness :
    ((1 : Int) = 0 →
        0 ≤ (UpdateDrawFrame_cell { args with pixelsX := 4, pixelsY := 3, snake := 1, tilt := 1 } 5).1
          ∧ (UpdateDrawFrame_cell { args with pixelsX := 4, pixelsY := 3, snake := 1, tilt := 1 } 5).1 < 4
          ∧ 0 ≤ (UpdateDrawFrame_cell { args with pixelsX := 4, pixelsY := 3, snake := 1, tilt := 1 } 5).2
          ∧ (UpdateDrawFrame_cell { args with pixelsX := 4, pixelsY := 3, snake := 1, tilt := 1 } 5).2 < 3)
      ∧ ((1 : Int) ≠ 0 →
        0 ≤ (UpdateDrawFrame_cell { args with pixelsX := 4, pixelsY := 3, snake := 1, tilt := 1 } 5).1
          ∧ (UpdateDrawFrame_cell { args with pixelsX := 4, pixelsY := 3, snake := 1, tilt := 1 } 5).1 < 3
          ∧ 0 ≤ (UpdateDrawFrame_cell { args with pixelsX := 4, pixelsY := 3, snake := 1, tilt := 1 } 5).2
          ∧ (UpdateDrawFrame_cell { args with pixelsX := 4, pixelsY := 3, snake := 1, tilt := 1 } 5).2 < 4) :=
  cell_in_grid { args with pixelsX := 4, pixelsY := 3, snake := 1, tilt := 1 } 5
    (by decide) (by decide) (by decide)

/-- Two indices of the grid with the same cell are equal. -/
theorem cell_inj (a : args_t) (i j : Int) (hc : 1 ≤ a.pixelsX)
    (hi0 : 0 ≤ i) (hj0 : 0 ≤ j)
    (h : UpdateDrawFrame_cell a i = UpdateDrawFrame_cell a j) : i = j := by
  rw [cell_eq a i hc hi0, cell_eq a j hc hj0] at h
  have hdi := Int.emod_add_ediv i a.pixelsX
  have hdj := Int.emod_add_ediv j a.pixelsX
  have hy : i / a.pixelsX = j / a.pixelsX := by
    by_cases ht : a.tilt ≠ 0
    · rw [if_pos ht, if_pos ht, Prod.mk.injEq] at h
      obtain ⟨hy, -⟩ := h
      split_ifs at hy <;> omega
    · rw [if_neg ht, if_neg ht, Prod.mk.injEq] at h
      obtain ⟨-, hy⟩ := h
      split_ifs at hy <;> omega
  have hx : i % a.pixelsX = j % a.pixelsX := by
    rw [hy] at h
    by_cases ht : a.tilt ≠ 0
    · rw [if_pos ht, if_pos ht, Prod.mk.injEq] at h
      obtain ⟨-, hx⟩ := h
      split_ifs at hx <;> omega
    · rw [if_neg ht, if_neg ht, Prod.mk.injEq] at h
      obtain ⟨hx, -⟩ := h
      split_ifs at hx <;> omega
  rw [← hdi, ← hdj, hx, hy]

/-- Every cell of the untilted grid is the cell of some index. -/
theorem cell_surj (a : args_t) (x y : Int) (hc : 1 ≤ a.pixelsX)
    (hx0 : 0 ≤ x) (hx1 : x < a.pixelsX) (hy0 : 0 ≤ y) (hy1 : y < a.pixelsY) :
    ∃ i, 0 ≤ i ∧ i < a.pixelsX * a.pixelsY
      ∧ UpdateDrawFrame_cell a i = if a.tilt ≠ 0 then (y, x) else (x, y) := by
  -- the row and column of the base layout that the flags send to `(x, y)`
  obtain ⟨y0, hy0d⟩ : ∃ y0 : Int, y0 = if a.flip ≠ 0 then a.pixelsY - 1 - y else y := ⟨_, rfl⟩
  obtain ⟨x0, hx0d⟩ : ∃ x0 : Int, x0 =
      if (if a.snake ≠ 0 ∧ Int.tmod y0 2 ≠ 0 then lnot a.mirror else a.mirror) ≠ 0
      then a.pixelsX - 1 - x else x := ⟨_, rfl⟩
  have hy0r : 0 ≤ y0 ∧ y0 < a.pixelsY := by
    rw [hy0d]; split_ifs <;> omega
  have hx0r : 0 ≤ x0 ∧ x0 < a.pixelsX := by
    rw [hx0d]; split_ifs <;> omega
  have hi0 : 0 ≤ a.pixelsX * y0 + x0 := by
    have := Int.mul_nonneg (show (0 : Int) ≤ a.pixelsX by omega) hy0r.1
    omega
  have hdiv : (a.pixelsX * y0 + x0) / a.pixelsX = y0 := by
    rw [Int.add_comm, Int.add_mul_ediv_left _ _ (by omega : a.pixelsX ≠ 0),
      Int.ediv_eq_zero_of_lt hx0r.1 hx0r.2]
    omega
  have hmod : (a.pixelsX * y0 + x0) % a.pixelsX = x0 := by
    rw [Int.add_comm, Int.add_mul_emod_self_left, Int.emod_eq_of_lt hx0r.1 hx0r.2]
  have hY : (if a.flip ≠ 0 then a.pixelsY - 1 - y0 else y0) = y := by
    rw [hy0d]; split_ifs <;> omega
  have hX : (if (if a.snake ≠ 0 ∧ Int.tmod y0 2 ≠ 0 then lnot a.mirror else a.mirror) ≠ 0
      then a.pixelsX - 1 - x0 else x0) = x := by
    rw [hx0d]; split_ifs <;> omega
  refine ⟨a.pixelsX * y0 + x0, hi0, ?_, ?_⟩
  · have : a.pixelsX * y0 + x0 < a.pixelsX * (y0 + 1) := by
      rw [Int.mul_add]; omega
    have h2 : a.pixelsX * (y0 + 1) ≤ a.pixelsX * a.pixelsY :=
      Int.mul_le_mul_of_nonneg_left (by omega) (by omega)
    omega
  · rw [cell_eq a _ hc hi0, hdiv, hmod, hY, hX]

/-- C10: for at least one column, any number of rows and any flags, the transform
is injective on the indices `0 ≤ i < columns * rows`, and every cell of the grid
(columns by rows, or rows by columns when tilt is set) is the cell of one of these
indices: the transform is a bijection from the index range onto the grid. -/
theorem cell_bijective (a : args_t) (hc : 1 ≤ a.pixelsX) :
    (∀ i j : Int, 0 ≤ i → i < a.pixelsX * a.pixelsY → 0 ≤ j → j < a.pixelsX * a.pixelsY →
        i ≠ j → UpdateDrawFrame_cell a i ≠ UpdateDrawFrame_cell a j)
      ∧ (∀ x y : Int,
          (if a.tilt ≠ 0 then 0 ≤ x ∧ x < a.pixelsY ∧ 0 ≤ y ∧ y < a.pixelsX
            else 0 ≤ x ∧ x < a.pixelsX ∧ 0 ≤ y ∧ y < a.pixelsY) →
          ∃ i, 0 ≤ i ∧ i < a.pixelsX * a.pixelsY ∧ UpdateDrawFrame_cell a i = (x, y)) := by
  constructor
  · intro i j hi0 _ hj0 _ hne h
    exact hne (cell_inj a i j hc hi0 hj0 h)
  · intro x y hxy
    by_cases ht : a.tilt ≠ 0
    · rw [if_pos ht] at hxy
      obtain ⟨i, h0, h1, h2⟩ := cell_surj a y x hc hxy.2.2.1 hxy.2.2.2 hxy.1 hxy.2.1
      rw [if_pos ht] at h2
      exact ⟨i, h0, h1, h2⟩
    · rw [if_neg ht] at hxy
      obtain ⟨i, h0, h1, h2⟩ := cell_surj a x y hc hxy.1 hxy.2.1 hxy.2.2.1 hxy.2.2.2
      rw [if_neg ht] at h2
      exact ⟨i, h0, h1, h2⟩

/-- C10 on a 4 by 3 snake layout with tilt set: the indices 3 and 4 (end of the first
row, start of the reversed second row) get different cells, and the cell `(1, 3)`
of the 3 by 4 grid is the cell of some index. -/
theorem cell_bijective_witness :
    UpdateDrawFrame_cell { args with pixelsX := 4, pixelsY := 3, snake := 1, tilt := 1 } 3
        ≠ UpdateDrawFrame_cell { args with pixelsX := 4, pixelsY := 3, snake := 1, tilt := 1 } 4
      ∧ ∃ i : Int, 0 ≤ i ∧ i < 4 * 3
        ∧ UpdateDrawFrame_cell { args with pixelsX := 4, pixelsY := 3, snake := 1, tilt := 1 } i
          = (1, 3) :=
  ⟨(cell_bijective { args with pixelsX := 4, pixelsY := 3, snake := 1, tilt := 1 }
      (by decide)).1 3 4 (by decide) (by decide) (by decide) (by decide) (by decide),
   (cell_bijective { args with pixelsX := 4, pixelsY := 3, snake := 1, tilt := 1 }
      (by decide)).2 1 3 (by decide)⟩

/-! ## Geometry derivation -/

/-- For `c ≥ 1` and `n ≥ 1` the quotient `(n + c - 1) / c` of the source is the
ceiling of `n / c`. -/
theorem ceil_div_eq (n c : Int) (hc : 1 ≤ c) (hn : 0 < n) :
    Int.tdiv (n + c - 1) c = ⌈(n : ℚ) / (c : ℚ)⌉ := by
  rw [Int.tdiv_eq_ediv (by omega) (by omega)]
  symm
  rw [Int.ceil_eq_iff]
  have hcq : (0 : ℚ) < (c : ℚ) := by exact_mod_cast (by omega : (0 : Int) < c)
  have h1 := Int.emod_add_ediv (n + c - 1) c
  have h2 := Int.emod_nonneg (n + c - 1) (by omega : c ≠ 0)
  have h3 := Int.emod_lt_of_pos (n + c - 1) (by omega : 0 < c)
  constructor
  · rw [lt_div_iff₀ hcq]
    have : ((n + c - 1) / c - 1) * c < n := by
      have : ((n + c - 1) / c - 1) * c = c * ((n + c - 1) / c) - c := by ring
      omega
    exact_mod_cast this
  · rw [div_le_iff₀ hcq]
    have : n ≤ (n + c - 1) / c * c := by
      have : (n + c - 1) / c * c = c * ((n + c - 1) / c) := by ring
      omega
    exact_mod_cast this

/-- A value inside the range of `int` is its own reduction. -/
theorem int_wrap_of_range (v : Int) (h1 : INT_MIN ≤ v) (h2 : v ≤ INT_MAX) :
    int_wrap v = v := by
  simp only [INT_MIN, INT_MAX] at h1 h2
  simp only [int_wrap]
  omega

/-- With at least one column the derivation ends without a fault and keeps the
column count; rows and pixel count are given in closed form. -/
theorem main_geometry_ok (a : args_t) (hc : 1 ≤ a.pixelsX) :
    ∃ g : args_t, main_geometry a = .ok g ∧ g.pixelsX = a.pixelsX
      ∧ g.pixelsY =
        (if a.pixelsY = 0 ∧ a.pixelCount = 0 then 10
          else if a.pixelsY = 0
            then Int.tdiv (int_sub (int_add a.pixelCount a.pixelsX) 1) a.pixelsX
            else a.pixelsY)
      ∧ g.pixelCount =
        (if a.pixelCount = 0 then int_mul a.pixelsX g.pixelsY else a.pixelCount) := by
  have hdiv : ∀ v : Int, int_div v a.pixelsX = some (Int.tdiv v a.pixelsX) := by
    intro v
    simp only [int_div]
    rw [if_neg]
    intro h
    omega
  have h10 : (10 : Int) ≠ 0 := by decide
  by_cases hy : a.pixelsY = 0 <;> by_cases hn : a.pixelCount = 0 <;>
    by_cases hg : a.gutterY = 0 <;>
    simp [main_geometry, Exits.bind, hdiv, hy, hn, hg, h10]

/-- C5, amended: the geometry derivation for `columns ≥ 1`, with 0 for "not given",
as long as the `int` arithmetic does not overflow. It ends without a fault and never
changes the column count. Rows not given and `pixelCount = n > 0` with
`n + columns ≤ INT_MAX`: rows is the ceiling of `n / columns` and `pixelCount` stays
`n`. Rows `r > 0` given and `pixelCount` not, with `columns * r ≤ INT_MAX`:
`pixelCount = columns * r` and rows stays `r`. Neither given, with
`10 * columns ≤ INT_MAX`: rows is 10 and `pixelCount = 10 * columns`. -/
theorem geometry_derivation (a : args_t) (hc : 1 ≤ a.pixelsX) :
    ∃ g : args_t, main_geometry a = .ok g ∧ g.pixelsX = a.pixelsX
      ∧ (a.pixelsY = 0 → 0 < a.pixelCount → a.pixelCount + a.pixelsX ≤ INT_MAX →
        g.pixelsY = ⌈(a.pixelCount : ℚ) / (a.pixelsX : ℚ)⌉
          ∧ g.pixelCount = a.pixelCount)
      ∧ (0 < a.pixelsY → a.pixelCount = 0 → a.pixelsX * a.pixelsY ≤ INT_MAX →
        g.pixelCount = a.pixelsX * a.pixelsY ∧ g.pixelsY = a.pixelsY)
      ∧ (a.pixelsY = 0 → a.pixelCount = 0 → 10 * a.pixelsX ≤ INT_MAX →
        g.pixelsY = 10 ∧ g.pixelCount = 10 * a.pixelsX) := by
  obtain ⟨g, hg, hx, hgy, hgn⟩ := main_geometry_ok a hc
  refine ⟨g, hg, hx, ?_, ?_, ?_⟩
  · intro hy hn hb
    have hn0 : a.pixelCount ≠ 0 := by omega
    have hadd : int_add a.pixelCount a.pixelsX = a.pixelCount + a.pixelsX :=
      int_wrap_of_range _ (by simp only [INT_MIN]; omega) hb
    have hsub : int_sub (a.pixelCount + a.pixelsX) 1 = a.pixelCount + a.pixelsX - 1 :=
      int_wrap_of_range _ (by simp only [INT_MIN]; omega)
        (by simp only [INT_MAX] at hb ⊢; omega)
    rw [if_neg (by simp only [hn0, and_false, not_false_eq_true]), if_pos hy, hadd, hsub,
      ceil_div_eq a.pixelCount a.pixelsX hc hn] at hgy
    rw [if_neg hn0] at hgn
    exact ⟨hgy, hgn⟩
  · intro hy hn hb
    have hy0 : a.pixelsY ≠ 0 := by omega
    rw [if_neg (by simp only [hy0, false_and, not_false_eq_true]), if_neg hy0] at hgy
    have hpos : 0 ≤ a.pixelsX * a.pixelsY :=
      Int.mul_nonneg (by omega) (by omega)
    rw [if_pos hn, hgy, int_mul,
      int_wrap_of_range _ (by simp only [INT_MIN]; omega) hb] at hgn
    exact ⟨hgn, hgy⟩
  · intro hy hn hb
    rw [if_pos ⟨hy, hn⟩] at hgy
    rw [if_pos hn, hgy, int_mul, Int.mul_comm,
      int_wrap_of_range _ (by simp only [INT_MIN]; omega) hb] at hgn
    exact ⟨hgy, hgn⟩

/-- C5, amended, on the two configurations named by the specification: 4 columns
with 12 pixels derive 3 rows, and 4 columns with 3 rows derive 12 pixels. -/
theorem geometry_derivation_witness :
    (∃ g : args_t, main_geometry { args with pixelsX := 4, pixelCount := 12 } = .ok g
        ∧ g.pixelsX = 4 ∧ g.pixelsY = 3 ∧ g.pixelCount = 12)
      ∧ (∃ g : args_t, main_geometry { args with pixelsX := 4, pixelsY := 3 } = .ok g
        ∧ g.pixelsX = 4 ∧ g.pixelCount = 12 ∧ g.pixelsY = 3) := by
  obtain ⟨g1, h1, hx1, hr1, -, -⟩ :=
    geometry_derivation { args with pixelsX := 4, pixelCount := 12 } (by decide)
  obtain ⟨g2, h2, hx2, -, hr2, -⟩ :=
    geometry_derivation { args with pixelsX := 4, pixelsY := 3 } (by decide)
  have e1 := hr1 (by decide) (by decide) (by decide)
  have e2 := hr2 (by decide) (by decide) (by decide)
  refine ⟨⟨g1, h1, hx1, ?_, e1.2⟩, ⟨g2, h2, hx2, e2.1, e2.2⟩⟩
  rw [e1.1]
  norm_num [args]

/-- C5 as stated fails: the command line `-n 2147483647` keeps the default 20
columns and gives no rows, and the derivation computes the rows as
`(2147483647 + 20 - 1) / 20` in `int` arithmetic, where the sum wraps to
`-2147483630`: rows is `-107374181`, not the ceiling `107374183` of
`2147483647 / 20`. -/
theorem geometry_derivation_overflows :
    main_configure [('n', some ['2', '1', '4', '7', '4', '8', '3', '6', '4', '7'])]
        = .ok { args with pixelsY := -107374181, pixelCount := 2147483647, gutterY := 15 }
      ∧ main_geometry { args with pixelsX := 20, pixelsY := 0, pixelCount := 2147483647 }
        = .ok { args with pixelsY := -107374181, pixelCount := 2147483647, gutterY := 15 }
      ∧ ⌈((2147483647 : Int) : ℚ) / ((20 : Int) : ℚ)⌉ = 107374183
      ∧ (-107374181 : Int) ≠ 107374183 := by
  refine ⟨by decide, by decide, ?_, by decide⟩
  rw [← ceil_div_eq 2147483647 20 (by decide) (by decide)]
  decide

/-! ## Receiving a packet -/

/-- A copy that stays inside both arrays succeeds. -/
theorem memcpy_inside (dst src : List Nat) (n : Nat) (h1 : n ≤ dst.length)
    (h2 : n ≤ src.length) : memcpy dst src n = some (src.take n ++ dst.drop n) := by
  simp [memcpy, h1, h2]

/-- A copy of `n` bytes keeps the size of the destination. -/
theorem copy_length (dst src : List Nat) (n : Nat) (h1 : n ≤ dst.length)
    (h2 : n ≤ src.length) : (src.take n ++ dst.drop n).length = dst.length := by
  simp only [List.length_append, List.length_take, List.length_drop]
  omega

/-- The first `n` positions of the destination hold the source bytes. -/
theorem copy_low (dst src : List Nat) (n i : Nat) (h2 : n ≤ src.length) (hi : i < n) :
    (src.take n ++ dst.drop n)[i]? = src[i]? := by
  rw [List.getElem?_append_left (by simp only [List.length_take]; omega),
    List.getElem?_take, if_pos hi]

/-- The positions from `n` on keep the bytes of the destination. -/
theorem copy_high (dst src : List Nat) (n i : Nat) (h2 : n ≤ src.length) (hi : n ≤ i) :
    (src.take n ++ dst.drop n)[i]? = dst[i]? := by
  have hlen : (src.take n).length = n := by simp only [List.length_take]; omega
  rw [List.getElem?_append_right (by omega), hlen, List.getElem?_drop]
  congr 1
  omega

/-- What `DDPGetPacket` does with a waiting datagram of at most `DDP_BUFSIZE` bytes
when the copy fits the destination. -/
theorem DDPGetPacket_datagram (d buf B : List Nat) (P : Nat) (hL : d.length ≤ 1500)
    (hB : min (d.length - 10) (P * 3 % 2 ^ 32) ≤ B.length) :
    DDPGetPacket (.datagram d) buf B P =
      .ret ((min (d.length - 10) (P * 3 % 2 ^ 32) : Nat) : Int)
        (((d ++ buf.drop d.length).drop 10).take (min (d.length - 10) (P * 3 % 2 ^ 32))
          ++ B.drop (min (d.length - 10) (P * 3 % 2 ^ 32)))
        (d ++ buf.drop d.length) := by
  have hmin : min d.length DDP_BUFSIZE = d.length := by
    simp only [DDP_BUFSIZE]; omega
  have hrgb : (if (if d.length > 10 then d.length - 10 else 0) > P * 3 % 2 ^ 32
      then P * 3 % 2 ^ 32 else (if d.length > 10 then d.length - 10 else 0))
      = min (d.length - 10) (P * 3 % 2 ^ 32) := by
    split_ifs <;> omega
  have hsrc : min (d.length - 10) (P * 3 % 2 ^ 32)
      ≤ ((d ++ buf.drop d.length).drop 10).length := by
    simp only [List.length_drop, List.length_append]
    omega
  simp only [DDPGetPacket, recvfrom, hmin, List.take_length, hrgb,
    memcpy_inside B _ _ hB hsrc]

/-- C1, amended: with a datagram of `L ≤ 1500` bytes waiting and a destination that
has room for the copy, `DDPGetPacket` returns `n = min(max(0, L - 10), (3 * P) mod
2 ^ 32)`, the capacity in bytes being computed in 32 bit unsigned arithmetic; this
is `min(max(0, L - 10), 3 * P)` whenever `3 * P < 2 ^ 32`. The destination keeps its
size, holds the datagram bytes `10 .. 10 + n - 1` at the positions `0 .. n - 1`, and
is unchanged at every position from `n` on. -/
theorem DDPGetPacket_copies (d buf B : List Nat) (P : Nat) (hL : d.length ≤ 1500)
    (hB : min (d.length - 10) (P * 3 % 2 ^ 32) ≤ B.length) :
    ∃ (n : Nat) (B' buf' : List Nat),
      DDPGetPacket (.datagram d) buf B P = .ret (n : Int) B' buf'
        ∧ (n : Int) = min (max 0 ((d.length : Int) - 10)) ((P * 3 % 2 ^ 32 : Nat) : Int)
        ∧ (P * 3 < 2 ^ 32 → (n : Int) = min (max 0 ((d.length : Int) - 10)) (3 * (P : Int)))
        ∧ B'.length = B.length
        ∧ (∀ i, i < n → B'[i]? = d[10 + i]?)
        ∧ (∀ i, n ≤ i → B'[i]? = B[i]?) := by
  have hsrc : min (d.length - 10) (P * 3 % 2 ^ 32)
      ≤ ((d ++ buf.drop d.length).drop 10).length := by
    simp only [List.length_drop, List.length_append]
    omega
  refine ⟨min (d.length - 10) (P * 3 % 2 ^ 32), _, _,
    DDPGetPacket_datagram d buf B P hL hB, ?_, ?_, copy_length B _ _ hB hsrc, ?_, ?_⟩
  · omega
  · intro hP
    rw [Nat.mod_eq_of_lt hP]
    omega
  · intro i hi
    rw [copy_low B _ _ i hsrc hi, List.getElem?_drop,
      List.getElem?_append_left (by omega)]
  · intro i hi
    exact copy_high B _ _ i hsrc hi

/-- C1, amended, on the two cases named by the specification, with a buffer of 10
pixels: the 13 byte datagram and the datagram with 40 payload bytes. -/
theorem DDPGetPacket_copies_witness :
    (∃ (n : Nat) (B' buf' : List Nat),
      DDPGetPacket (.datagram datagram13) ddp_buf0 pixels10 10 = .ret (n : Int) B' buf'
        ∧ (n : Int) = min (max 0 ((datagram13.length : Int) - 10)) ((10 * 3 % 2 ^ 32 : Nat) : Int)
        ∧ (10 * 3 < 2 ^ 32 →
          (n : Int) = min (max 0 ((datagram13.length : Int) - 10)) (3 * ((10 : Nat) : Int)))
        ∧ B'.length = pixels10.length
        ∧ (∀ i, i < n → B'[i]? = datagram13[10 + i]?)
        ∧ (∀ i, n ≤ i → B'[i]? = pixels10[i]?))
      ∧ DDPGetPacket (.datagram datagram13) ddp_buf0 pixels10 10
        = .ret 3 ([10, 20, 30] ++ List.replicate 27 7) (datagram13 ++ List.replicate 1487 0)
      ∧ DDPGetPacket (.datagram datagram50) ddp_buf0 pixels10 10
        = .ret 30 ((List.range 40).drop 10) (datagram50 ++ List.replicate 1450 0) := by
  refine ⟨DDPGetPacket_copies datagram13 ddp_buf0 pixels10 10 (by decide) (by decide), ?_, ?_⟩
  · have h := DDPGetPacket_datagram datagram13 ddp_buf0 pixels10 10 (by decide) (by decide)
    have hn : min (datagram13.length - 10) (10 * 3 % 2 ^ 32) = 3 := by decide
    have hb : ddp_buf0.drop datagram13.length = List.replicate 1487 0 := by
      show (List.replicate 1500 0).drop 13 = _
      rw [List.drop_replicate]
    rw [hn, hb] at h
    have hp : ((datagram13 ++ List.replicate 1487 0).drop 10).take 3 ++ pixels10.drop 3
        = [10, 20, 30] ++ List.replicate 27 7 := by decide
    rw [hp] at h
    exact h
  · have h := DDPGetPacket_datagram datagram50 ddp_buf0 pixels10 10 (by decide) (by decide)
    have hn : min (datagram50.length - 10) (10 * 3 % 2 ^ 32) = 30 := by decide
    have hb : ddp_buf0.drop datagram50.length = List.replicate 1450 0 := by
      show (List.replicate 1500 0).drop 50 = _
      rw [List.drop_replicate]
    rw [hn, hb] at h
    have hp : ((datagram50 ++ List.replicate 1450 0).drop 10).take 30 ++ pixels10.drop 30
        = (List.range 40).drop 10 := by decide
    rw [hp] at h
    exact h

/-- C1 as stated fails: with a 13 byte datagram and the pixel capacity
`P = 1431655766`, for which `3 * P = 2 ^ 32 + 2`, the function clamps to 2 bytes and
returns 2, not `min(max(0, 13 - 10), 3 * P) = 3`. This is so for a destination of
`3 * P` bytes, and for the 768 byte buffer of `main`, which passes this capacity
after the command line `-n 1431655766`. -/
theorem DDPGetPacket_capacity_wraps :
    (∃ B' buf' : List Nat,
      DDPGetPacket (.datagram datagram13) ddp_buf0 (List.replicate (3 * 1431655766) 7)
          1431655766 = .ret 2 B' buf')
      ∧ (∃ B' buf' : List Nat,
        DDPGetPacket (.datagram datagram13) ddp_buf0 pixels256 1431655766 = .ret 2 B' buf')
      ∧ (2 : Int) ≠ min (max 0 ((datagram13.length : Int) - 10)) (3 * 1431655766) := by
  have hn : min (datagram13.length - 10) (1431655766 * 3 % 2 ^ 32) = 2 := by decide
  refine ⟨?_, ?_, by decide⟩
  · have h := DDPGetPacket_datagram datagram13 ddp_buf0
      (List.replicate (3 * 1431655766) 7) 1431655766 (by decide)
      (by rw [List.length_replicate]; decide)
    rw [hn] at h
    exact ⟨_, _, h⟩
  · have hlen : pixels256.length = 768 := by
      show (List.replicate 768 7).length = 768
      rw [List.length_replicate]
    have h := DDPGetPacket_datagram datagram13 ddp_buf0 pixels256 1431655766 (by decide)
      (by rw [hlen]; decide)
    rw [hn] at h
    exact ⟨_, _, h⟩

/-! ## Parsing the tuple options -/

/-- A digit is neither white space nor a sign. -/
theorem digit_not_space_or_sign (c : Char) (h : c.isDigit = true) :
    isspace c = false ∧ c ≠ '-' ∧ c ≠ '+' := by
  refine ⟨?_, ?_, ?_⟩
  · simp only [Char.isDigit, Bool.and_eq_true, decide_eq_true_eq] at h
    have h1 : 48 ≤ c.toNat := h.1
    simp only [isspace, decide_eq_false_iff_not]
    omega
  · rintro rfl
    exact absurd h (by decide)
  · rintro rfl
    exact absurd h (by decide)

/-- On a non-empty run of digits `strtol` consumes the whole string. -/
theorem strtol_digits (s : List Char) (hne : s ≠ []) (hd : ∀ c ∈ s, c.isDigit = true) :
    (strtol s).2 = s.length := by
  cases s with
  | nil => exact absurd rfl hne
  | cons c cs =>
    obtain ⟨hsp, hm, hp⟩ := digit_not_space_or_sign c (hd c (List.mem_cons_self c cs))
    have htw : (c :: cs).takeWhile Char.isDigit = c :: cs :=
      List.takeWhile_eq_self_iff.mpr hd
    simp [strtol, List.takeWhile_cons, List.dropWhile_cons, hsp, hm, hp, htw]

/-- The form `N`: on every argument that is a non-empty run of decimal digits
`parse_tuple` exits with failure. -/
theorem parse_tuple_single (s : List Char) (hne : s ≠ []) (hd : ∀ c ∈ s, c.isDigit = true)
    (x y : Int) : parse_tuple (some s) x y = .exitFailure := by
  have he := strtol_digits s hne hd
  have hlen : s.length ≠ 0 := by
    intro h
    exact hne (List.length_eq_zero.mp h)
  have hnul : charAt s s.length = Char.ofNat 0 := by
    simp only [charAt, List.drop_length, List.headD_nil]
  simp only [parse_tuple, he, hlen, if_false, hnul, ne_eq, not_true_eq_false]
  rw [if_pos (by decide)]

/-- C9 fails on the code. The argument `20` (the form `N`) makes `parse_tuple` exit
with failure; the argument `20x10` (the form `NxM`) returns 1 and leaves `*y`
unchanged. Every argument that is a run of digits alone exits with failure. For
every argument, whenever `parse_tuple` returns, it returns 1 with `*y` unchanged: the value 2 and the store to `*y` are unreachable, because the test
`*endptr != 0` returns exactly when a character follows the first number. -/
theorem parse_tuple_forms :
    parse_tuple (some ['2', '0']) 800 600 = .exitFailure
      ∧ parse_tuple (some ['2', '0', 'x', '1', '0']) 800 600 = .ok (1, 20, 600)
      ∧ (∀ (s : List Char) (x y : Int), s ≠ [] → (∀ c ∈ s, c.isDigit = true) →
          parse_tuple (some s) x y = .exitFailure)
      ∧ ∀ (arg : Option (List Char)) (x y : Int) (r : Int × Int × Int),
          parse_tuple arg x y = .ok r → r.1 = 1 ∧ r.2.2 = y := by
  refine ⟨by decide, by decide, fun s x y hne hd => parse_tuple_single s hne hd x y, ?_⟩
  intro arg x y r h
  cases arg with
  | none => simp [parse_tuple] at h
  | some arg =>
    simp only [parse_tuple] at h
    split_ifs at h with h1 h2 h3 h4
    · simp only [Exits.ok.injEq] at h
      subst h
      exact ⟨rfl, rfl⟩
    · exact absurd (not_not.mp h3) (by rw [not_not.mp h2]; decide)

/-! ## Capacity of the pixel buffer -/

/-- A copy that does not fit the destination is reported as out of bounds. -/
theorem DDPGetPacket_overflow (d buf B : List Nat) (P : Nat) (hL : d.length ≤ 1500)
    (hB : B.length < min (d.length - 10) (P * 3 % 2 ^ 32)) :
    DDPGetPacket (.datagram d) buf B P = .outOfBounds := by
  have hmin : min d.length DDP_BUFSIZE = d.length := by
    simp only [DDP_BUFSIZE]; omega
  have hrgb : (if (if d.length > 10 then d.length - 10 else 0) > P * 3 % 2 ^ 32
      then P * 3 % 2 ^ 32 else (if d.length > 10 then d.length - 10 else 0))
      = min (d.length - 10) (P * 3 % 2 ^ 32) := by
    split_ifs <;> omega
  have hcpy : memcpy B ((d ++ buf.drop d.length).drop 10)
      (min (d.length - 10) (P * 3 % 2 ^ 32)) = none := by
    simp only [memcpy]
    rw [if_neg]
    intro h
    omega
  simp only [DDPGetPacket, recvfrom, hmin, List.take_length, hrgb, hcpy]

/-- C6 fails on the code. The command line `-n 300` is accepted and derives
`pixelCount = 300` (20 columns, 15 rows), more than the 256 pixels of the buffer.
With that configuration a datagram of 1500 bytes makes `DDPGetPacket` copy
`min(1490, 900) = 900` bytes into the 768 byte buffer, so the copy and the loop
iteration of `main` run outside the buffer, and the renderer reads pixel 256
outside the buffer. -/
theorem pixel_buffer_too_small :
    main_configure [('n', some ['3', '0', '0'])]
        = .ok { args with pixelsX := 20, pixelsY := 15, pixelCount := 300, gutterY := 15 }
      ∧ intToUnsigned 300 = 300
      ∧ pixels256.length = 768
      ∧ min (datagram1500.length - 10) (300 * 3 % 2 ^ 32) = 900
      ∧ DDPGetPacket (.datagram datagram1500) ddp_buf0 pixels256 300 = .outOfBounds
      ∧ main_update { args with pixelsX := 20, pixelsY := 15, pixelCount := 300, gutterY := 15 }
          stats ddp_buf0 pixels256 (.datagram datagram1500) ⟨100, 0⟩ = .outOfBounds
      ∧ UpdateDrawFrame_color pixels256 256 = none := by
  have hlen : pixels256.length = 768 := by
    show (List.replicate 768 7).length = 768
    rw [List.length_replicate]
  have hd : datagram1500.length = 1500 := by
    show (List.replicate 1500 1).length = 1500
    rw [List.length_replicate]
  have hover : DDPGetPacket (.datagram datagram1500) ddp_buf0 pixels256 300 = .outOfBounds := by
    apply DDPGetPacket_overflow
    · omega
    · rw [hlen, hd]; decide
  refine ⟨by decide, by decide, hlen, ?_, hover, ?_, ?_⟩
  · rw [hd]; decide
  · have hu : intToUnsigned
        ({ args with pixelsX := 20, pixelsY := 15, pixelCount := 300, gutterY := 15 } :
          args_t).pixelCount = 300 := by decide
    simp only [main_update, hu, hover]
  · have h1 : pixels256[256 * 3]? = none := List.getElem?_eq_none (Nat.le_of_eq hlen)
    simp only [UpdateDrawFrame_color, h1]

/-! ## One iteration of the main loop -/

/-- The update of an iteration in which `DDPGetPacket` returns: statistics and pixel
buffer are those of the four steps in turn. -/
theorem main_update_ret (a : args_t) (st : stats_t) (buf px : List Nat) (sock : SockInput)
    (now : timespec) (n : Int) (px' buf' : List Nat)
    (h : DDPGetPacket sock buf px (intToUnsigned a.pixelCount) = .ret n px' buf') :
    (main_update a st buf px sock now).stats? = some (main_report a (main_count st now n) now)
      ∧ (main_update a st buf px sock now).pixels?
        = some (main_hold a (main_report a (main_count st now n) now) now px') := by
  simp only [main_update, h]
  split_ifs <;> exact ⟨rfl, rfl⟩

/-- Counting leaves `start_time` alone and sets `ddp_time` for a positive length. -/
theorem main_count_fields (st : stats_t) (now : timespec) (n : Int) :
    (main_count st now n).start_time = st.start_time
      ∧ (main_count st now n).ddp_time = (if 0 < n then now else st.ddp_time)
      ∧ (main_count st now n).packet_count
        = (if 0 < n then st.packet_count + 1 else st.packet_count)
      ∧ (main_count st now n).packet_errors
        = (if n < 0 then st.packet_errors + 1 else st.packet_errors) := by
  simp only [main_count]
  split_ifs <;> exact ⟨rfl, rfl, rfl, rfl⟩

/-- The report step changes `last_report` only. -/
theorem main_report_fields (a : args_t) (st : stats_t) (now : timespec) :
    (main_report a st now).start_time = st.start_time
      ∧ (main_report a st now).ddp_time = st.ddp_time
      ∧ (main_report a st now).packet_count = st.packet_count
      ∧ (main_report a st now).packet_errors = st.packet_errors := by
  simp only [main_report]
  split_ifs <;> exact ⟨rfl, rfl, rfl, rfl⟩

/-- C3, amended: in every iteration in which `DDPGetPacket` returns (with value `n`,
leaving the pixels `px'`), the pixel buffer after the hold test is all zero, at its
full size, if and only if the condition below holds, and is `px'` otherwise. The
condition is: `hold` is not zero, and `now.tv_sec - start_time.tv_sec > hold`, and
`now.tv_sec - ddp_time.tv_sec > hold`, where only the whole seconds of the
timestamps are compared and `ddp_time` is `now` itself when `n > 0`. For `hold ≥ 0`
the first part is `hold > 0`; with `hold = 0` the buffer is never blanked. -/
theorem hold_blanks_on_whole_seconds (a : args_t) (st : stats_t) (buf px : List Nat)
    (sock : SockInput) (now : timespec) (n : Int) (px' buf' : List Nat)
    (h : DDPGetPacket sock buf px (intToUnsigned a.pixelCount) = .ret n px' buf') :
    (main_update a st buf px sock now).pixels? = some
        (if a.hold ≠ 0 ∧ now.tv_sec - st.start_time.tv_sec > a.hold
            ∧ now.tv_sec - (if 0 < n then now else st.ddp_time).tv_sec > a.hold
          then List.replicate px'.length 0 else px')
      ∧ (0 ≤ a.hold → (main_update a st buf px sock now).pixels? = some
        (if 0 < a.hold ∧ now.tv_sec - st.start_time.tv_sec > a.hold
            ∧ now.tv_sec - (if 0 < n then now else st.ddp_time).tv_sec > a.hold
          then List.replicate px'.length 0 else px'))
      ∧ (a.hold = 0 → (main_update a st buf px sock now).pixels? = some px') := by
  obtain ⟨-, hp⟩ := main_update_ret a st buf px sock now n px' buf' h
  obtain ⟨hs, hd, -, -⟩ := main_count_fields st now n
  obtain ⟨hrs, hrd, -, -⟩ := main_report_fields a (main_count st now n) now
  have hform : (main_update a st buf px sock now).pixels? = some
      (if a.hold ≠ 0 ∧ now.tv_sec - st.start_time.tv_sec > a.hold
          ∧ now.tv_sec - (if 0 < n then now else st.ddp_time).tv_sec > a.hold
        then List.replicate px'.length 0 else px') := by
    rw [hp, main_hold, hrs, hrd, hs, hd]
  refine ⟨hform, ?_, ?_⟩
  · intro h0
    rw [hform]
    have hiff : a.hold ≠ 0 ↔ 0 < a.hold := by omega
    simp only [hiff]
  · intro h0
    rw [hform, if_neg]
    intro hc
    exact hc.1 h0

/-- C3, amended, on the two cases named by the specification, with `hold = 5`, no
datagram waiting and the 768 byte buffer of `main`: 6 seconds after the start and
after the last packet the buffer is blanked; 6 seconds after the start and 4 seconds
after the last packet it is left alone. -/
theorem hold_blanks_on_whole_seconds_witness :
    (main_update { args with hold := 5 }
        { stats with start_time := ⟨100, 0⟩, ddp_time := ⟨100, 0⟩ }
        ddp_buf0 pixels256 .notReady ⟨106, 0⟩).pixels? = some (List.replicate 768 0)
      ∧ (main_update { args with hold := 5 }
        { stats with start_time := ⟨100, 0⟩, ddp_time := ⟨102, 0⟩ }
        ddp_buf0 pixels256 .notReady ⟨106, 0⟩).pixels? = some pixels256 := by
  have hlen : pixels256.length = 768 := by
    show (List.replicate 768 7).length = 768
    rw [List.length_replicate]
  have h1 := (hold_blanks_on_whole_seconds { args with hold := 5 }
    { stats with start_time := ⟨100, 0⟩, ddp_time := ⟨100, 0⟩ }
    ddp_buf0 pixels256 .notReady ⟨106, 0⟩ (-1) pixels256 ddp_buf0 rfl).1
  have h2 := (hold_blanks_on_whole_seconds { args with hold := 5 }
    { stats with start_time := ⟨100, 0⟩, ddp_time := ⟨102, 0⟩ }
    ddp_buf0 pixels256 .notReady ⟨106, 0⟩ (-1) pixels256 ddp_buf0 rfl).1
  rw [if_pos (by decide), hlen] at h1
  rw [if_neg (by decide)] at h2
  exact ⟨h1, h2⟩

/-- C3 as stated fails: with `hold = 5`, start and last packet at `(100 s, 0 ns)`
and `now = (105 s, 900000000 ns)`, the exact elapsed and idle times are 5.9 s, more
than 5 s, but the differences of the whole seconds are 5, not more than 5, and the
buffer is not cleared. -/
theorem hold_ignores_nanoseconds :
    (0 < (5 : Int)
        ∧ timespec_diff_ns ⟨105, 900000000⟩ ⟨100, 0⟩ > 5 * 1000000000
        ∧ timespec_diff_ns ⟨105, 900000000⟩ ⟨100, 0⟩ > 5 * 1000000000)
      ∧ (main_update { args with hold := 5 }
          { stats with start_time := ⟨100, 0⟩, ddp_time := ⟨100, 0⟩ }
          ddp_buf0 pixels256 .notReady ⟨105, 900000000⟩).pixels? = some pixels256
      ∧ pixels256 ≠ List.replicate 768 0 := by
  refine ⟨by decide, ?_, ?_⟩
  · have h := (main_update_ret { args with hold := 5 }
      { stats with start_time := ⟨100, 0⟩, ddp_time := ⟨100, 0⟩ }
      ddp_buf0 pixels256 .notReady ⟨105, 900000000⟩ (-1) pixels256 ddp_buf0 rfl).2
    rw [main_hold, if_neg (by decide)] at h
    exact h
  · intro h
    have h0 : (List.replicate 768 7)[0]? = (List.replicate 768 0)[0]? :=
      congrArg (fun l : List Nat => l[0]?) h
    rw [List.getElem?_replicate, List.getElem?_replicate] at h0
    revert h0
    decide

end LedstripDDPSim
